import Mathlib

/-!
Shallow embedding of `src/worker/src/worker.js` (p2p-chat-min).

The worker is a rendezvous service: a top-level `fetch` routes
`/room/:slug/...` requests to a per-slug `Room` instance; each `Room`
keeps an in-memory map from session key to `{ offer, answer, createdAt }`
and sweeps expired entries (`gc`) at the start of every request.

Modelling conventions:
* JSON/JS values are the inductive `Json`; JS `undefined` is `Option.none`
  where it can occur (a missing object property, an absent query
  parameter, an unparseable body).
* JS numbers that the program compares (`Date.now()`, `createdAt`) are
  modelled as `Int`; payload numbers inside `Json` as `Int` as well
  (the program never does arithmetic on payloads, it only tests
  truthiness, for which `0` is the falsy case).
* A `Map` is an association list whose first binding for a key wins;
  `Map.set` replaces the existing binding in place or appends.
* The two `Date.now()` calls that can occur inside one request (in `gc`
  and in the offer branch) are modelled by the single timestamp `now`
  passed to `Room.fetch`.
* Response headers (CORS, content-type) are not modelled; a `Response`
  is its status code and body.
-/

/-- A JSON value as parsed by `req.json()` and stored by the worker. -/
inductive Json where
  | null
  | bool (b : Bool)
  | num (n : Int)
  | str (s : String)
  | arr (elems : List Json)
  | obj (fields : List (String × Json))


/-- JS truthiness of a `Json` value (`!v` in the source negates this).
`null`, `false`, `0` and `""` are falsy; arrays and objects are truthy. -/
def Json.truthy : Json → Bool
  | .null => false
  | .bool b => b
  | .num n => n != 0
  | .str s => s != ""
  | .arr _ => true
  | .obj _ => true

/-- JS property access `j.f` on a non-`null` value: a field lookup on an
object, `undefined` (`none`) on anything else. Access on `null` throws
and is handled at the call site (see `submitAnswer`). -/
def Json.getField (j : Json) (f : String) : Option Json :=
  match j with
  | .obj fields => (fields.find? (fun p => p.1 == f)).map (fun p => p.2)
  | _ => none

/-- One session record, `{ offer, answer, createdAt }`.
`answer = none` models both a still-absent property and a stored JS
`undefined`, which the program never distinguishes.
`createdAt` is milliseconds since epoch. -/
structure SessionRecord where
  offer : Json
  answer : Option Json
  createdAt : Int


/-- The room's session `Map`: key to record, first binding for a key wins. -/
abbrev Sessions := List (String × SessionRecord)

/-- Model of `Map.get`. -/
def Sessions.get? (s : Sessions) (k : String) : Option SessionRecord :=
  (s.find? (fun p => p.1 == k)).map (fun p => p.2)

/-- Model of `Map.set`: replace the existing binding in place, or append. -/
def Sessions.set (s : Sessions) (k : String) (v : SessionRecord) : Sessions :=
  match s with
  | [] => [(k, v)]
  | (k', v') :: rest =>
      if k' == k then (k, v) :: rest else (k', v') :: Sessions.set rest k v

/-- Model of `Room.gc`: evict every entry whose `createdAt` is falsy (`0`) or older
than `ttlSec` seconds before `now` (`!v.createdAt || now - v.createdAt >
ttlSec * 1000`). -/
def Sessions.gc (s : Sessions) (now : Int) (ttlSec : Int) : Sessions :=
  s.filter (fun p => !(p.2.createdAt == 0 || decide (now - p.2.createdAt > ttlSec * 1000)))

/-- JS `url.pathname.split("/")`: split at every slash, keeping empty
pieces (structural recursion over the character list). -/
def splitSlashAux : List Char → List Char → List String
  | [], acc => [String.mk acc.reverse]
  | c :: cs, acc =>
      if c = '/' then String.mk acc.reverse :: splitSlashAux cs []
      else splitSlashAux cs (c :: acc)

/-- Model of `url.pathname.split("/").filter(Boolean)` from the source: the
non-empty path segments. -/
def pathParts (pathname : String) : List String :=
  (splitSlashAux pathname.data []).filter (fun s => s != "")

/-- Model of `url.searchParams.get("key") || crypto.randomUUID()`: a missing or
empty `key` query parameter falls back to the freshly generated UUID. -/
def effectiveKey (queryKey : Option String) (uuid : String) : String :=
  match queryKey with
  | none => uuid
  | some s => if s == "" then uuid else s

/-- An HTTP request as the worker consumes it: the method, the URL path,
the `key` query parameter (`none` when absent), and the result of parsing
the body as JSON (`none` when the body is missing or unparseable). -/
structure Request where
  method : String
  pathname : String
  queryKey : Option String
  body : Option Json


/-- A response body: JSON (via the `json` helper) or plain text. -/
inductive RespBody where
  | jsonOf (j : Json)
  | text (s : String)


/-- A response: status code and body (headers are not modelled). -/
structure Response where
  status : Nat
  body : RespBody


/-- The `json(obj, status)` helper from the source. -/
def jsonResponse (j : Json) (status : Nat) : Response :=
  ⟨status, .jsonOf j⟩

/-- Outcome of one `Room.fetch` call: a response together with the updated
session map, or an uncaught JS exception (the session map at the moment it
was thrown). -/
inductive FetchOutcome where
  | resp (r : Response) (sessions : Sessions)
  | thrown (sessions : Sessions)


/-- The session map carried by a `FetchOutcome`. -/
def FetchOutcome.sessions : FetchOutcome → Sessions
  | .resp _ s => s
  | .thrown s => s

/-- The `offer` branch of `Room.fetch`, acting on the already-swept map:
`const offer = await req.json().catch(() => null); if (!offer) return
json({error:"invalid offer"}, 400); this.sessions.set(key, { offer,
createdAt: Date.now() }); return json({ key });`. -/
def createOffer (s : Sessions) (key : String) (body : Option Json) (now : Int) :
    Response × Sessions :=
  let offer := body.getD Json.null
  if !offer.truthy then
    (jsonResponse (.obj [("error", .str "invalid offer")]) 400, s)
  else
    (jsonResponse (.obj [("key", .str key)]) 200,
      s.set key ⟨offer, none, now⟩)

/-- The `answer` branch of `Room.fetch`, acting on the already-swept map:
`const body = await req.json().catch(() => ({})); const entry =
this.sessions.get(key); if (!entry || !entry.offer) return
json({error:"no offer"}, 404); entry.answer = body.answer; return
json({ok:true});`. When the parsed body is JS `null`, the property access
`body.answer` throws a TypeError that nothing catches. -/
def submitAnswer (s : Sessions) (key : String) (body : Option Json) : FetchOutcome :=
  let b := body.getD (.obj [])
  match s.get? key with
  | none => .resp (jsonResponse (.obj [("error", .str "no offer")]) 404) s
  | some entry =>
      if !entry.offer.truthy then
        .resp (jsonResponse (.obj [("error", .str "no offer")]) 404) s
      else
        match b with
        | .null => .thrown s
        | _ =>
            .resp (jsonResponse (.obj [("ok", .bool true)]) 200)
              (s.set key ⟨entry.offer, b.getField "answer", entry.createdAt⟩)

/-- JS `entry.answer || null` in the `get` branch: a falsy (or absent)
stored answer is reported as `null`. -/
def orNull (x : Option Json) : Json :=
  match x with
  | some v => if v.truthy then v else Json.null
  | none => Json.null

/-- The `get` branch of `Room.fetch`, acting on the already-swept map:
`const entry = this.sessions.get(key); if (!entry) return new
Response("Not found", {status: 404}); return json({ offer: entry.offer,
answer: entry.answer || null });`. -/
def readSession (s : Sessions) (key : String) : Response :=
  match s.get? key with
  | none => ⟨404, .text "Not found"⟩
  | some entry =>
      jsonResponse (.obj [("offer", entry.offer), ("answer", orNull entry.answer)]) 200

/-- Model of `Room.fetch`: derive the action from the path and the key from the
query (falling back to `uuid`), run `gc` (TTL 600 s), then dispatch on
method and action; anything else is 404 "Not found". -/
def Room.fetch (s : Sessions) (req : Request) (uuid : String) (now : Int) :
    FetchOutcome :=
  let action := (pathParts req.pathname)[2]?
  let key := effectiveKey req.queryKey uuid
  let g := s.gc now 600
  if req.method == "POST" && action == some "offer" then
    let p := createOffer g key req.body now
    .resp p.1 p.2
  else if req.method == "POST" && action == some "answer" then
    submitAnswer g key req.body
  else if req.method == "GET" && action == some "get" then
    .resp (readSession g key) g
  else
    .resp ⟨404, .text "Not found"⟩ g

/-- The registry of `Room` instances: `env.ROOM.idFromName(slug)` addresses
one instance, hence one session map, per distinct slug. -/
abbrev World := String → Sessions

/-- Outcome of one top-level worker `fetch`: a response (or a propagated
exception from a room) together with the updated per-slug state. -/
inductive WorkerOutcome where
  | resp (r : Response) (world : World)
  | thrown (world : World)

/-- The per-slug state carried by a `WorkerOutcome`. -/
def WorkerOutcome.world : WorkerOutcome → World
  | .resp _ w => w
  | .thrown w => w

/-- The top-level worker `fetch`: OPTIONS preflight, `/health`, the
`/room/:slug/...` route delegating to that slug's `Room` instance, and 404
otherwise. CORS headers (added uniformly to every response) are not
modelled. -/
def workerFetch (world : World) (req : Request) (uuid : String) (now : Int) :
    WorkerOutcome :=
  if req.method == "OPTIONS" then
    .resp ⟨204, .text ""⟩ world
  else if req.pathname == "/health" then
    .resp ⟨200, .text "ok"⟩ world
  else
    let parts := pathParts req.pathname
    if parts[0]? == some "room" && decide (parts.length ≥ 3) then
      let slug := (parts[1]?).getD ""
      match Room.fetch (world slug) req uuid now with
      | .resp r s => .resp r (fun x => if x == slug then s else world x)
      | .thrown s => .thrown (fun x => if x == slug then s else world x)
    else
      .resp ⟨404, .text "Not found"⟩ world

/-! ### Map lemmas -/

theorem Sessions.get_cons (k' : String) (v' : SessionRecord) (rest : Sessions)
    (k : String) :
    Sessions.get? ((k', v') :: rest) k = if k' == k then some v' else rest.get? k := by
  by_cases h : k' == k <;> simp [Sessions.get?, List.find?_cons, h]

theorem Sessions.get_set_self (s : Sessions) (k : String) (v : SessionRecord) :
    (s.set k v).get? k = some v := by
  induction s with
  | nil => simp [Sessions.set, Sessions.get_cons]
  | cons p rest ih =>
      obtain ⟨k', v'⟩ := p
      by_cases h : k' == k
      · simp [Sessions.set, h, Sessions.get_cons]
      · simp [Sessions.set, h, Sessions.get_cons, ih]

theorem Sessions.get_set_ne (s : Sessions) (k k' : String) (v : SessionRecord)
    (h : k' ≠ k) : (s.set k v).get? k' = s.get? k' := by
  have hk : (k == k') = false := beq_eq_false_iff_ne.mpr (Ne.symm h)
  induction s with
  | nil => simp [Sessions.set, Sessions.get_cons, hk]
  | cons p rest ih =>
      obtain ⟨a, b⟩ := p
      by_cases ha : a == k
      · have ha' : a = k := by simpa using ha
        simp [Sessions.set, ha, Sessions.get_cons, hk, ha']
      · simp [Sessions.set, ha, Sessions.get_cons, ih]

/-- The survival test of `gc`, named for reuse in theorem statements:
`true` exactly when the entry is kept. -/
def SessionRecord.live (r : SessionRecord) (now ttlSec : Int) : Bool :=
  !(r.createdAt == 0 || decide (now - r.createdAt > ttlSec * 1000))

theorem Sessions.gc_eq_filter (s : Sessions) (now ttl : Int) :
    s.gc now ttl = s.filter (fun p => p.2.live now ttl) := rfl

theorem Sessions.get_gc_live (s : Sessions) (k : String) (r : SessionRecord)
    (now ttl : Int) (hget : s.get? k = some r) (hlive : r.live now ttl = true) :
    (s.gc now ttl).get? k = some r := by
  induction s with
  | nil => simp [Sessions.get?] at hget
  | cons p rest ih =>
      obtain ⟨a, b⟩ := p
      rw [Sessions.get_cons] at hget
      rw [Sessions.gc_eq_filter, List.filter_cons]
      by_cases ha : a == k
      · simp only [ha, if_true, Option.some.injEq] at hget
        subst hget
        simp only [hlive, if_true]
        rw [Sessions.get_cons]
        simp [ha]
      · simp only [ha, if_false] at hget
        by_cases hb : b.live now ttl
        · simp only [hb, if_true]
          rw [Sessions.get_cons]
          simp only [ha, if_false]
          rw [← Sessions.gc_eq_filter]
          exact ih hget
        · simp only [hb, if_false]
          rw [← Sessions.gc_eq_filter]
          exact ih hget

theorem Sessions.get_none_of_not_mem (s : Sessions) (k : String)
    (h : k ∉ s.map Prod.fst) : s.get? k = none := by
  induction s with
  | nil => rfl
  | cons p rest ih =>
      obtain ⟨a, b⟩ := p
      simp only [List.map_cons, List.mem_cons] at h
      push_neg at h
      rw [Sessions.get_cons]
      have : (a == k) = false := beq_eq_false_iff_ne.mpr (Ne.symm h.1)
      simp only [this, if_false]
      exact ih h.2

theorem Sessions.get_gc_none (s : Sessions) (k : String) (now ttl : Int)
    (h : s.get? k = none) : (s.gc now ttl).get? k = none := by
  induction s with
  | nil => rfl
  | cons p rest ih =>
      obtain ⟨a, b⟩ := p
      rw [Sessions.get_cons] at h
      by_cases ha : a == k
      · simp [ha] at h
      · simp only [ha, if_false] at h
        rw [Sessions.gc_eq_filter, List.filter_cons]
        by_cases hb : b.live now ttl
        · simp only [hb, if_true]
          rw [Sessions.get_cons]
          simp only [ha, if_false]
          rw [← Sessions.gc_eq_filter]
          exact ih h
        · simp only [hb, if_false]
          rw [← Sessions.gc_eq_filter]
          exact ih h

theorem Sessions.get_gc_dead (s : Sessions) (k : String) (r : SessionRecord)
    (now ttl : Int) (hnd : (s.map Prod.fst).Nodup)
    (hget : s.get? k = some r) (hdead : r.live now ttl = false) :
    (s.gc now ttl).get? k = none := by
  induction s with
  | nil => simp [Sessions.get?] at hget
  | cons p rest ih =>
      obtain ⟨a, b⟩ := p
      simp only [List.map_cons, List.nodup_cons] at hnd
      rw [Sessions.get_cons] at hget
      rw [Sessions.gc_eq_filter, List.filter_cons]
      by_cases ha : a == k
      · simp only [ha, if_true, Option.some.injEq] at hget
        subst hget
        simp only [hdead, if_false]
        rw [← Sessions.gc_eq_filter]
        apply Sessions.get_gc_none
        apply Sessions.get_none_of_not_mem
        have : a = k := by simpa using ha
        rw [← this]
        exact hnd.1
      · simp only [ha, if_false] at hget
        by_cases hb : b.live now ttl
        · simp only [hb, if_true]
          rw [Sessions.get_cons]
          simp only [ha, if_false]
          rw [← Sessions.gc_eq_filter]
          exact ih hnd.2 hget
        · simp only [hb, if_false]
          rw [← Sessions.gc_eq_filter]
          exact ih hnd.2 hget

/-! ### Reduction of `Room.fetch` on the three concrete routes -/

theorem fetch_offer_eq (s : Sessions) (qk : Option String) (body : Option Json)
    (uuid : String) (now : Int) :
    Room.fetch s ⟨"POST", "/room/r/offer", qk, body⟩ uuid now =
      .resp (createOffer (s.gc now 600) (effectiveKey qk uuid) body now).1
        (createOffer (s.gc now 600) (effectiveKey qk uuid) body now).2 := rfl

theorem fetch_answer_eq (s : Sessions) (qk : Option String) (body : Option Json)
    (uuid : String) (now : Int) :
    Room.fetch s ⟨"POST", "/room/r/answer", qk, body⟩ uuid now =
      submitAnswer (s.gc now 600) (effectiveKey qk uuid) body := rfl

theorem fetch_get_eq (s : Sessions) (qk : Option String)
    (uuid : String) (now : Int) :
    Room.fetch s ⟨"GET", "/room/r/get", qk, none⟩ uuid now =
      .resp (readSession (s.gc now 600) (effectiveKey qk uuid)) (s.gc now 600) := rfl

/-! ### The offer invariant -/

/-- The state invariant behind §3 "A session record cannot exist without an
`offer`": every stored record's offer is truthy. -/
def OfferInv (s : Sessions) : Prop :=
  ∀ p ∈ s, p.2.offer.truthy = true

theorem Sessions.mem_set (s : Sessions) (k : String) (v : SessionRecord)
    (p : String × SessionRecord) (h : p ∈ s.set k v) : p = (k, v) ∨ p ∈ s := by
  induction s with
  | nil => simpa [Sessions.set] using h
  | cons q rest ih =>
      obtain ⟨a, b⟩ := q
      by_cases ha : a == k
      · rw [show Sessions.set ((a, b) :: rest) k v = (k, v) :: rest by
          simp [Sessions.set, ha]] at h
        rcases List.mem_cons.mp h with h1 | h1
        · exact Or.inl h1
        · exact Or.inr (List.mem_cons_of_mem _ h1)
      · rw [show Sessions.set ((a, b) :: rest) k v = (a, b) :: Sessions.set rest k v by
          simp [Sessions.set, ha]] at h
        rcases List.mem_cons.mp h with h1 | h1
        · exact Or.inr (by simp [h1])
        · rcases ih h1 with h2 | h2
          · exact Or.inl h2
          · exact Or.inr (List.mem_cons_of_mem _ h2)

theorem Sessions.get_mem (s : Sessions) (k : String) (r : SessionRecord)
    (h : s.get? k = some r) : ∃ a, (a, r) ∈ s := by
  induction s with
  | nil => simp [Sessions.get?] at h
  | cons q rest ih =>
      obtain ⟨a, b⟩ := q
      rw [Sessions.get_cons] at h
      by_cases ha : a == k
      · simp only [ha, if_true, Option.some.injEq] at h
        exact ⟨a, by simp [h]⟩
      · simp only [ha, if_false] at h
        obtain ⟨c, hc⟩ := ih h
        exact ⟨c, List.mem_cons_of_mem _ hc⟩

theorem OfferInv.nil : OfferInv [] := by
  intro p hp
  simp at hp

theorem OfferInv.gc (s : Sessions) (now ttl : Int) (h : OfferInv s) :
    OfferInv (s.gc now ttl) := by
  intro p hp
  rw [Sessions.gc_eq_filter] at hp
  exact h p (List.mem_of_mem_filter hp)

theorem OfferInv.set (s : Sessions) (k : String) (v : SessionRecord)
    (h : OfferInv s) (hv : v.offer.truthy = true) : OfferInv (s.set k v) := by
  intro p hp
  rcases Sessions.mem_set s k v p hp with h' | h'
  · rw [h']
    exact hv
  · exact h p h'

theorem OfferInv.get (s : Sessions) (k : String) (r : SessionRecord)
    (h : OfferInv s) (hget : s.get? k = some r) : r.offer.truthy = true := by
  obtain ⟨a, ha⟩ := Sessions.get_mem s k r hget
  exact h (a, r) ha

/-! ### Operation-level lemmas -/

theorem effectiveKey_some (k uuid : String) (h : k ≠ "") :
    effectiveKey (some k) uuid = k := by
  simp [effectiveKey, beq_eq_false_iff_ne.mpr h]

theorem live_of (r : SessionRecord) (now : Int) (h0 : r.createdAt ≠ 0)
    (hle : now - r.createdAt ≤ 600000) : r.live now 600 = true := by
  simp only [SessionRecord.live, beq_eq_false_iff_ne.mpr h0, Bool.false_or,
    Bool.not_eq_true', decide_eq_false_iff_not]
  omega

theorem dead_of (r : SessionRecord) (now : Int)
    (hgt : now - r.createdAt > 600000) : r.live now 600 = false := by
  have h : decide (now - r.createdAt > 600 * 1000) = true := decide_eq_true (by omega)
  simp only [SessionRecord.live, h, Bool.or_true, Bool.not_true]

theorem createOffer_fail (s : Sessions) (key : String) (body : Option Json)
    (now : Int) (h : (body.getD Json.null).truthy = false) :
    createOffer s key body now
      = (jsonResponse (.obj [("error", .str "invalid offer")]) 400, s) := by
  simp [createOffer, h]

theorem createOffer_ok (s : Sessions) (key : String) (body : Option Json)
    (now : Int) (h : (body.getD Json.null).truthy = true) :
    createOffer s key body now
      = (jsonResponse (.obj [("key", .str key)]) 200,
          s.set key ⟨body.getD Json.null, none, now⟩) := by
  simp [createOffer, h]

theorem submitAnswer_none (s : Sessions) (key : String) (body : Option Json)
    (h : s.get? key = none) :
    submitAnswer s key body
      = .resp (jsonResponse (.obj [("error", .str "no offer")]) 404) s := by
  simp [submitAnswer, h]

theorem submitAnswer_found (s : Sessions) (key : String) (body : Option Json)
    (r : SessionRecord) (hget : s.get? key = some r)
    (hoff : r.offer.truthy = true) (hb : body.getD (.obj []) ≠ Json.null) :
    submitAnswer s key body
      = .resp (jsonResponse (.obj [("ok", .bool true)]) 200)
          (s.set key ⟨r.offer, (body.getD (.obj [])).getField "answer", r.createdAt⟩) := by
  have h1 : (!r.offer.truthy) = false := by simp [hoff]
  cases hb2 : body.getD (.obj []) with
  | null => exact absurd hb2 hb
  | bool b => simp [submitAnswer, hget, h1, hb2]
  | num n => simp [submitAnswer, hget, h1, hb2]
  | str a => simp [submitAnswer, hget, h1, hb2]
  | arr a => simp [submitAnswer, hget, h1, hb2]
  | obj a => simp [submitAnswer, hget, h1, hb2]

theorem submitAnswer_thrown (s : Sessions) (key : String) (body : Option Json)
    (r : SessionRecord) (hget : s.get? key = some r)
    (hoff : r.offer.truthy = true) (hb : body.getD (.obj []) = Json.null) :
    submitAnswer s key body = .thrown s := by
  have h1 : (!r.offer.truthy) = false := by simp [hoff]
  simp [submitAnswer, hget, h1, hb]

theorem readSession_none (s : Sessions) (key : String) (h : s.get? key = none) :
    readSession s key = ⟨404, .text "Not found"⟩ := by
  simp [readSession, h]

theorem readSession_found (s : Sessions) (key : String) (r : SessionRecord)
    (h : s.get? key = some r) :
    readSession s key
      = jsonResponse (.obj [("offer", r.offer), ("answer", orNull r.answer)]) 200 := by
  simp [readSession, h]

/-! ### Claims -/

/-- C1, counterexample: with offer `{"sdp":"x"}` and answer payload `0`
(a parseable JSON value), `CreateOffer` returns key `"K"` and
`SubmitAnswer("K", 0)` returns `{ok:true}` storing `0`, but
`ReadSession("K")` reports `answer = null`, not the submitted `0` —
so the round trip as claimed fails for a falsy answer payload. -/
theorem C1_counterexample :
    Room.fetch [] ⟨"POST", "/room/r/offer", none, some (.obj [("sdp", .str "x")])⟩ "K" 1000
      = .resp (jsonResponse (.obj [("key", .str "K")]) 200)
          [("K", ⟨.obj [("sdp", .str "x")], none, 1000⟩)]
    ∧ Room.fetch [("K", ⟨.obj [("sdp", .str "x")], none, 1000⟩)]
        ⟨"POST", "/room/r/answer", some "K", some (.obj [("answer", .num 0)])⟩ "u" 1000
      = .resp (jsonResponse (.obj [("ok", .bool true)]) 200)
          [("K", ⟨.obj [("sdp", .str "x")], some (.num 0), 1000⟩)]
    ∧ Room.fetch [("K", ⟨.obj [("sdp", .str "x")], some (.num 0), 1000⟩)]
        ⟨"GET", "/room/r/get", some "K", none⟩ "u" 1000
      = .resp (jsonResponse
          (.obj [("offer", .obj [("sdp", .str "x")]), ("answer", Json.null)]) 200)
          [("K", ⟨.obj [("sdp", .str "x")], some (.num 0), 1000⟩)]
    ∧ Json.null ≠ Json.num 0 :=
  ⟨rfl, rfl, rfl, fun h => Json.noConfusion h⟩

/-- C1 (amended): for a truthy offer payload `O`, `CreateOffer` with no
caller key returns the generated key; `SubmitAnswer` of `{answer: A}`
under that key returns `{ok:true}`; `ReadSession` within the TTL returns
`{offer: O, answer: A}` when `A` is truthy, and reports `answer = null`
when `A` is falsy. -/
theorem C1_round_trip_amended (s : Sessions) (O A : Json) (uuid u2 u3 : String)
    (t1 t2 t3 : Int) (hO : O.truthy = true) (hu : uuid ≠ "")
    (h1 : t1 ≠ 0) (h2 : t2 - t1 ≤ 600000) (h3 : t3 - t1 ≤ 600000) :
    ∃ s1 s2 : Sessions,
      Room.fetch s ⟨"POST", "/room/r/offer", none, some O⟩ uuid t1
        = .resp (jsonResponse (.obj [("key", .str uuid)]) 200) s1
      ∧ Room.fetch s1 ⟨"POST", "/room/r/answer", some uuid, some (.obj [("answer", A)])⟩ u2 t2
        = .resp (jsonResponse (.obj [("ok", .bool true)]) 200) s2
      ∧ Room.fetch s2 ⟨"GET", "/room/r/get", some uuid, none⟩ u3 t3
        = .resp (jsonResponse
            (.obj [("offer", O), ("answer", if A.truthy then A else Json.null)]) 200)
            (s2.gc t3 600) := by
  refine ⟨(s.gc t1 600).set uuid ⟨O, none, t1⟩,
    (((s.gc t1 600).set uuid ⟨O, none, t1⟩).gc t2 600).set uuid ⟨O, some A, t1⟩,
    ?_, ?_, ?_⟩
  · rw [fetch_offer_eq, createOffer_ok _ _ _ _ (by simpa using hO)]
    rfl
  · rw [fetch_answer_eq, effectiveKey_some _ _ hu]
    have hget : ((s.gc t1 600).set uuid ⟨O, none, t1⟩).get? uuid = some ⟨O, none, t1⟩ :=
      Sessions.get_set_self _ _ _
    have hlive : SessionRecord.live ⟨O, none, t1⟩ t2 600 = true := live_of _ _ h1 h2
    have hgc := Sessions.get_gc_live _ uuid _ t2 600 hget hlive
    rw [submitAnswer_found _ _ _ _ hgc hO (by simp)]
    simp [Json.getField]
  · rw [fetch_get_eq, effectiveKey_some _ _ hu]
    have hget : ((((s.gc t1 600).set uuid ⟨O, none, t1⟩).gc t2 600).set uuid
        ⟨O, some A, t1⟩).get? uuid = some ⟨O, some A, t1⟩ :=
      Sessions.get_set_self _ _ _
    have hlive : SessionRecord.live ⟨O, some A, t1⟩ t3 600 = true := live_of _ _ h1 h3
    have hgc := Sessions.get_gc_live _ uuid _ t3 600 hget hlive
    rw [readSession_found _ _ _ hgc]
    simp [orNull]

/-- C1 witness: the amended round trip evaluated at a concrete run. -/
theorem C1_round_trip_amended_witness :
    Json.truthy (.obj [("sdp", .str "x")]) = true
    ∧ ∃ s1 s2 : Sessions,
      Room.fetch [] ⟨"POST", "/room/r/offer", none, some (.obj [("sdp", .str "x")])⟩ "K" 1000
        = .resp (jsonResponse (.obj [("key", .str "K")]) 200) s1
      ∧ Room.fetch s1
          ⟨"POST", "/room/r/answer", some "K", some (.obj [("answer", .str "a")])⟩ "u" 1000
        = .resp (jsonResponse (.obj [("ok", .bool true)]) 200) s2
      ∧ Room.fetch s2 ⟨"GET", "/room/r/get", some "K", none⟩ "u" 1000
        = .resp (jsonResponse
            (.obj [("offer", .obj [("sdp", .str "x")]),
              ("answer", if Json.truthy (.str "a") then Json.str "a" else Json.null)]) 200)
            (Sessions.gc s2 1000 600) :=
  ⟨rfl, C1_round_trip_amended [] (.obj [("sdp", .str "x")]) (.str "a") "K" "u" "u"
    1000 1000 1000 rfl (by decide) (by decide) (by decide) (by decide)⟩

/-- C2: a record created at a (truthy) time `T` is returned by
`ReadSession` at `T + TTL − ε` and is `NotFound` at `T + TTL + ε`
(TTL = 600 s = 600000 ms), because the GC sweep runs before the lookup.
The `Nodup` hypothesis is the `Map` representation invariant of the
association-list model. -/
theorem C2_ttl_expiry (s : Sessions) (K uuid1 uuid2 : String) (r : SessionRecord)
    (T eps : Int) (hnd : (s.map Prod.fst).Nodup)
    (hget : s.get? K = some r) (hT : r.createdAt = T)
    (hTpos : 0 < T) (heps : 0 < eps) (hK : K ≠ "") :
    Room.fetch s ⟨"GET", "/room/r/get", some K, none⟩ uuid1 (T + 600000 - eps)
      = .resp (jsonResponse (.obj [("offer", r.offer), ("answer", orNull r.answer)]) 200)
          (s.gc (T + 600000 - eps) 600)
    ∧ Room.fetch s ⟨"GET", "/room/r/get", some K, none⟩ uuid2 (T + 600000 + eps)
      = .resp ⟨404, .text "Not found"⟩ (s.gc (T + 600000 + eps) 600) := by
  constructor
  · rw [fetch_get_eq, effectiveKey_some _ _ hK]
    have hlive : r.live (T + 600000 - eps) 600 = true :=
      live_of _ _ (by omega) (by omega)
    rw [readSession_found _ _ _ (Sessions.get_gc_live _ K _ _ 600 hget hlive)]
  · rw [fetch_get_eq, effectiveKey_some _ _ hK]
    have hdead : r.live (T + 600000 + eps) 600 = false :=
      dead_of _ _ (by omega)
    rw [readSession_none _ _ (Sessions.get_gc_dead _ K r _ 600 hnd hget hdead)]

/-- C2 witness: a record created at `T = 1000` is still served at
`T + 599999` and gone at `T + 600001`. -/
theorem C2_ttl_expiry_witness :
    ((([("k", (⟨.str "o", none, 1000⟩ : SessionRecord))] : Sessions).map Prod.fst).Nodup)
    ∧ (Room.fetch [("k", ⟨.str "o", none, 1000⟩)]
          ⟨"GET", "/room/r/get", some "k", none⟩ "u" (1000 + 600000 - 1)
        = .resp (jsonResponse (.obj [("offer", .str "o"), ("answer", orNull none)]) 200)
            (Sessions.gc [("k", ⟨.str "o", none, 1000⟩)] (1000 + 600000 - 1) 600)
      ∧ Room.fetch [("k", ⟨.str "o", none, 1000⟩)]
          ⟨"GET", "/room/r/get", some "k", none⟩ "u" (1000 + 600000 + 1)
        = .resp ⟨404, .text "Not found"⟩
            (Sessions.gc [("k", ⟨.str "o", none, 1000⟩)] (1000 + 600000 + 1) 600)) :=
  ⟨by simp, C2_ttl_expiry [("k", ⟨.str "o", none, 1000⟩)] "k" "u" "u" ⟨.str "o", none, 1000⟩
    1000 1 (by simp) rfl rfl (by decide) (by decide) (by decide)⟩

/-- C3, counterexample: on a record with a prior answer, `CreateOffer("K", 0)`
with the parseable but falsy payload `0` does not replace the record: it
returns 400 and a subsequent `ReadSession("K")` still returns the old offer
and the old answer, not `{offer: 0, answer: null}`. -/
theorem C3_counterexample :
    Room.fetch [("K", ⟨.str "old", some (.str "ans"), 1000⟩)]
        ⟨"POST", "/room/r/offer", some "K", some (.num 0)⟩ "u" 1000
      = .resp (jsonResponse (.obj [("error", .str "invalid offer")]) 400)
          [("K", ⟨.str "old", some (.str "ans"), 1000⟩)]
    ∧ Room.fetch [("K", ⟨.str "old", some (.str "ans"), 1000⟩)]
        ⟨"GET", "/room/r/get", some "K", none⟩ "u" 1000
      = .resp (jsonResponse (.obj [("offer", .str "old"), ("answer", .str "ans")]) 200)
          [("K", ⟨.str "old", some (.str "ans"), 1000⟩)] :=
  ⟨rfl, rfl⟩

/-- C3 (amended): for a truthy `newOffer`, `CreateOffer(K, newOffer)` on a
key with a prior answer overwrites the record with
`{offer: newOffer, answer: absent, createdAt: t}` (the overwrite time), and
a subsequent `ReadSession(K)` within the TTL returns
`{offer: newOffer, answer: null}`. -/
theorem C3_override_amended (s : Sessions) (K : String) (r : SessionRecord)
    (A newOffer : Json) (uuid u2 : String) (t t' : Int)
    (hget : s.get? K = some r) (hA : r.answer = some A)
    (hO : newOffer.truthy = true) (hK : K ≠ "")
    (ht : t ≠ 0) (ht' : t' - t ≤ 600000) :
    ∃ s1 : Sessions,
      Room.fetch s ⟨"POST", "/room/r/offer", some K, some newOffer⟩ uuid t
        = .resp (jsonResponse (.obj [("key", .str K)]) 200) s1
      ∧ s1.get? K = some ⟨newOffer, none, t⟩
      ∧ Room.fetch s1 ⟨"GET", "/room/r/get", some K, none⟩ u2 t'
        = .resp (jsonResponse (.obj [("offer", newOffer), ("answer", Json.null)]) 200)
            (s1.gc t' 600) := by
  refine ⟨(s.gc t 600).set K ⟨newOffer, none, t⟩, ?_, Sessions.get_set_self _ _ _, ?_⟩
  · rw [fetch_offer_eq, effectiveKey_some _ _ hK,
      createOffer_ok _ _ _ _ (by simpa using hO)]
    rfl
  · rw [fetch_get_eq, effectiveKey_some _ _ hK]
    have hlive : SessionRecord.live ⟨newOffer, none, t⟩ t' 600 = true :=
      live_of _ _ ht ht'
    have hgc := Sessions.get_gc_live ((s.gc t 600).set K ⟨newOffer, none, t⟩) K
      ⟨newOffer, none, t⟩ t' 600
      (Sessions.get_set_self (s.gc t 600) K ⟨newOffer, none, t⟩) hlive
    rw [readSession_found _ _ _ hgc]
    rfl

/-- C3 witness: the amended override property at a concrete run. -/
theorem C3_override_amended_witness :
    Sessions.get? [("K", ⟨.str "old", some (.str "ans"), 500⟩)] "K"
        = some ⟨.str "old", some (.str "ans"), 500⟩
    ∧ ∃ s1 : Sessions,
      Room.fetch [("K", ⟨.str "old", some (.str "ans"), 500⟩)]
          ⟨"POST", "/room/r/offer", some "K", some (.str "new")⟩ "u" 1000
        = .resp (jsonResponse (.obj [("key", .str "K")]) 200) s1
      ∧ s1.get? "K" = some ⟨.str "new", none, 1000⟩
      ∧ Room.fetch s1 ⟨"GET", "/room/r/get", some "K", none⟩ "u" 1000
        = .resp (jsonResponse (.obj [("offer", .str "new"), ("answer", Json.null)]) 200)
            (s1.gc 1000 600) :=
  ⟨rfl, C3_override_amended [("K", ⟨.str "old", some (.str "ans"), 500⟩)] "K"
    ⟨.str "old", some (.str "ans"), 500⟩ (.str "ans") (.str "new") "u" "u" 1000 1000
    rfl rfl rfl (by decide) (by decide) (by decide)⟩

/-- C4, counterexample: the body `0` is a parseable JSON payload, yet
`CreateOffer` rejects it with 400 `{error:"invalid offer"}` and inserts
nothing — the failure condition is not "missing or unparseable" alone. -/
theorem C4_counterexample :
    Room.fetch [] ⟨"POST", "/room/r/offer", none, some (.num 0)⟩ "u" 5
      = .resp (jsonResponse (.obj [("error", .str "invalid offer")]) 400) []
    ∧ (400 : Nat) ≠ 200 :=
  ⟨rfl, by decide⟩

/-- C4 (amended): `CreateOffer` fails with 400 `{error:"invalid offer"}`
and performs no mutation beyond the GC sweep exactly when the body is
missing, unparseable, or parses to a falsy JSON value (`null`, `false`,
`0`, `""`); for every truthy payload it inserts
`{offer, answer: absent, createdAt: now}` under the key and returns 200
with that key. -/
theorem C4_badrequest_amended (s : Sessions) (qk : Option String)
    (body : Option Json) (uuid : String) (now : Int) :
    (Room.fetch s ⟨"POST", "/room/r/offer", qk, body⟩ uuid now
        = .resp (jsonResponse (.obj [("error", .str "invalid offer")]) 400) (s.gc now 600)
      ↔ body = none ∨ ∃ j, body = some j ∧ j.truthy = false)
    ∧ (∀ j, body = some j → j.truthy = true →
        Room.fetch s ⟨"POST", "/room/r/offer", qk, body⟩ uuid now
          = .resp (jsonResponse (.obj [("key", .str (effectiveKey qk uuid))]) 200)
              ((s.gc now 600).set (effectiveKey qk uuid) ⟨j, none, now⟩)) := by
  have hcase : (body.getD Json.null).truthy = false
      ↔ (body = none ∨ ∃ j, body = some j ∧ j.truthy = false) := by
    cases body with
    | none => simp [Json.truthy]
    | some j => simp
  constructor
  · by_cases hb : (body.getD Json.null).truthy
    · rw [fetch_offer_eq, createOffer_ok _ _ _ _ hb]
      constructor
      · intro h
        exfalso
        have := congrArg (fun o => match o with
          | FetchOutcome.resp r _ => r.status
          | FetchOutcome.thrown _ => 0) h
        simp [jsonResponse] at this
      · intro h
        rw [← hcase] at h
        rw [hb] at h
        exact absurd h (by simp)
    · rw [fetch_offer_eq,
        createOffer_fail _ _ _ _ (by simpa using hb)]
      exact ⟨fun _ => hcase.mp (by simpa using hb), fun _ => rfl⟩
  · intro j hj htruthy
    rw [fetch_offer_eq, createOffer_ok _ _ _ _ (by simp [hj, htruthy])]
    rw [hj]
    rfl

/-- C4 witness: the amended characterization at concrete inputs. -/
theorem C4_badrequest_amended_witness :
    Json.truthy (.str "x") = true
    ∧ Room.fetch [] ⟨"POST", "/room/r/offer", none, some (.str "x")⟩ "u" 5
        = .resp (jsonResponse (.obj [("key", .str (effectiveKey none "u"))]) 200)
            ((Sessions.gc [] 5 600).set (effectiveKey none "u") ⟨.str "x", none, 5⟩) :=
  ⟨rfl, (C4_badrequest_amended [] none (some (.str "x")) "u" 5).2 (.str "x") rfl rfl⟩

/-- C5, counterexample: the answer request body `null` is parseable, the
record for `"K"` exists with an offer, yet `SubmitAnswer` neither sets the
answer nor returns a response: the property access `body.answer` on the
parsed `null` throws an uncaught TypeError, and the record is left with
`answer` still absent. -/
theorem C5_counterexample :
    Room.fetch [("K", ⟨.str "o", none, 1000⟩)]
        ⟨"POST", "/room/r/answer", some "K", some Json.null⟩ "u" 1000
      = .thrown [("K", ⟨.str "o", none, 1000⟩)]
    ∧ (Room.fetch [("K", ⟨.str "o", none, 1000⟩)]
        ⟨"POST", "/room/r/answer", some "K", some Json.null⟩ "u" 1000).sessions.get? "K"
      = some ⟨.str "o", none, 1000⟩ :=
  ⟨rfl, rfl⟩

/-- C5 (amended): on an answer request, after the GC sweep: when no record
exists for the key the handler returns `NotFound` and mutates nothing;
when a record with a (truthy) offer exists and the parsed body is not the
JSON value `null`, it replaces only that record's `answer` with the body's
`answer` field (absent when the body has none), keeping `offer` and
`createdAt` and every other record unchanged; when the parsed body is the
JSON value `null`, `body.answer` throws an uncaught TypeError and nothing
is mutated. -/
theorem C5_answer_frame_amended (s : Sessions) (qk : Option String)
    (body : Option Json) (uuid : String) (now : Int) (r : SessionRecord) :
    ((s.gc now 600).get? (effectiveKey qk uuid) = none →
       Room.fetch s ⟨"POST", "/room/r/answer", qk, body⟩ uuid now
         = .resp (jsonResponse (.obj [("error", .str "no offer")]) 404) (s.gc now 600))
    ∧ ((s.gc now 600).get? (effectiveKey qk uuid) = some r → r.offer.truthy = true →
        body.getD (.obj []) ≠ Json.null →
        Room.fetch s ⟨"POST", "/room/r/answer", qk, body⟩ uuid now
          = .resp (jsonResponse (.obj [("ok", .bool true)]) 200)
              ((s.gc now 600).set (effectiveKey qk uuid)
                ⟨r.offer, (body.getD (.obj [])).getField "answer", r.createdAt⟩)
        ∧ ((s.gc now 600).set (effectiveKey qk uuid)
              ⟨r.offer, (body.getD (.obj [])).getField "answer", r.createdAt⟩).get?
                (effectiveKey qk uuid)
            = some ⟨r.offer, (body.getD (.obj [])).getField "answer", r.createdAt⟩
        ∧ (∀ k', k' ≠ effectiveKey qk uuid →
            ((s.gc now 600).set (effectiveKey qk uuid)
                ⟨r.offer, (body.getD (.obj [])).getField "answer", r.createdAt⟩).get? k'
              = (s.gc now 600).get? k'))
    ∧ ((s.gc now 600).get? (effectiveKey qk uuid) = some r → r.offer.truthy = true →
        body.getD (.obj []) = Json.null →
        Room.fetch s ⟨"POST", "/room/r/answer", qk, body⟩ uuid now
          = .thrown (s.gc now 600)) := by
  refine ⟨?_, ?_, ?_⟩
  · intro hnone
    rw [fetch_answer_eq, submitAnswer_none _ _ _ hnone]
  · intro hget hoff hb
    refine ⟨?_, Sessions.get_set_self _ _ _, ?_⟩
    · rw [fetch_answer_eq, submitAnswer_found _ _ _ _ hget hoff hb]
    · intro k' hk'
      exact Sessions.get_set_ne _ _ _ _ hk'
  · intro hget hoff hb
    rw [fetch_answer_eq, submitAnswer_thrown _ _ _ _ hget hoff hb]

/-- C5 witness: the amended behavior at concrete inputs (missing-key 404
and the setting of a single answer field). -/
theorem C5_answer_frame_amended_witness :
    (Sessions.gc [] 5 600).get? (effectiveKey (some "K") "u") = none
    ∧ (Room.fetch [] ⟨"POST", "/room/r/answer", some "K", some (.obj [])⟩ "u" 5
        = .resp (jsonResponse (.obj [("error", .str "no offer")]) 404) (Sessions.gc [] 5 600)) :=
  ⟨rfl, (C5_answer_frame_amended [] (some "K") (some (.obj [])) "u" 5
    ⟨.str "o", none, 5⟩).1 rfl⟩

/-- C6: on a live record with an offer, `SubmitAnswer` with an unparseable
body proceeds with the empty object, returns `{ok:true}`, stores the
answer as `undefined` (absent), and a subsequent `ReadSession` within the
TTL reports `answer = null` rather than failing. -/
theorem C6_malformed_answer (s : Sessions) (K : String) (r : SessionRecord)
    (uuid uuid2 : String) (now now2 : Int)
    (hget : s.get? K = some r) (hoff : r.offer.truthy = true) (hK : K ≠ "")
    (hc0 : r.createdAt ≠ 0) (h1 : now - r.createdAt ≤ 600000)
    (h2 : now2 - r.createdAt ≤ 600000) :
    ∃ s1 : Sessions,
      Room.fetch s ⟨"POST", "/room/r/answer", some K, none⟩ uuid now
        = .resp (jsonResponse (.obj [("ok", .bool true)]) 200) s1
      ∧ s1.get? K = some ⟨r.offer, none, r.createdAt⟩
      ∧ Room.fetch s1 ⟨"GET", "/room/r/get", some K, none⟩ uuid2 now2
        = .resp (jsonResponse (.obj [("offer", r.offer), ("answer", Json.null)]) 200)
            (s1.gc now2 600) := by
  have hlive : r.live now 600 = true := live_of _ _ hc0 h1
  have hgc := Sessions.get_gc_live s K r now 600 hget hlive
  refine ⟨(s.gc now 600).set K ⟨r.offer, none, r.createdAt⟩, ?_, ?_, ?_⟩
  · rw [fetch_answer_eq, effectiveKey_some _ _ hK,
      submitAnswer_found _ _ _ _ hgc hoff (by simp)]
    rfl
  · exact Sessions.get_set_self _ _ _
  · rw [fetch_get_eq, effectiveKey_some _ _ hK]
    have hlive2 : SessionRecord.live ⟨r.offer, none, r.createdAt⟩ now2 600 = true :=
      live_of _ _ hc0 h2
    have hgc2 := Sessions.get_gc_live ((s.gc now 600).set K ⟨r.offer, none, r.createdAt⟩)
      K ⟨r.offer, none, r.createdAt⟩ now2 600
      (Sessions.get_set_self (s.gc now 600) K ⟨r.offer, none, r.createdAt⟩) hlive2
    rw [readSession_found _ _ _ hgc2]
    rfl

/-- C6 witness: the tolerated malformed answer at a concrete run. -/
theorem C6_malformed_answer_witness :
    Sessions.get? [("K", ⟨.str "o", none, 1000⟩)] "K" = some ⟨.str "o", none, 1000⟩
    ∧ ∃ s1 : Sessions,
      Room.fetch [("K", ⟨.str "o", none, 1000⟩)]
          ⟨"POST", "/room/r/answer", some "K", none⟩ "u" 1000
        = .resp (jsonResponse (.obj [("ok", .bool true)]) 200) s1
      ∧ s1.get? "K" = some ⟨.str "o", none, 1000⟩
      ∧ Room.fetch s1 ⟨"GET", "/room/r/get", some "K", none⟩ "u" 1000
        = .resp (jsonResponse (.obj [("offer", .str "o"), ("answer", Json.null)]) 200)
            (s1.gc 1000 600) :=
  ⟨rfl, C6_malformed_answer [("K", ⟨.str "o", none, 1000⟩)] "K" ⟨.str "o", none, 1000⟩
    "u" "u" 1000 1000 rfl rfl (by decide) (by decide) (by decide) (by decide)⟩

/-- C7, counterexample: after `SubmitAnswer("K", {answer: false})` stores
the answer `false`, `ReadSession("K")` reports `answer = null` — not the
stored value — because of `entry.answer || null`; so "null exactly when no
answer has been submitted" fails. -/
theorem C7_counterexample :
    Room.fetch [("K", ⟨.str "o", none, 1000⟩)]
        ⟨"POST", "/room/r/answer", some "K", some (.obj [("answer", .bool false)])⟩ "u" 1000
      = .resp (jsonResponse (.obj [("ok", .bool true)]) 200)
          [("K", ⟨.str "o", some (.bool false), 1000⟩)]
    ∧ Room.fetch [("K", ⟨.str "o", some (.bool false), 1000⟩)]
        ⟨"GET", "/room/r/get", some "K", none⟩ "u" 1000
      = .resp (jsonResponse (.obj [("offer", .str "o"), ("answer", Json.null)]) 200)
          [("K", ⟨.str "o", some (.bool false), 1000⟩)]
    ∧ Json.null ≠ Json.bool false :=
  ⟨rfl, rfl, fun h => Json.noConfusion h⟩

/-- C7 (amended): for a record surviving GC, `ReadSession` returns the
stored offer verbatim together with `answer || null`: the stored answer
`A` verbatim when `A` is truthy, and `null` when no answer was submitted
or the stored answer is falsy. -/
theorem C7_passthrough_amended (s : Sessions) (K uuid : String)
    (r : SessionRecord) (now : Int)
    (hget : s.get? K = some r) (hK : K ≠ "")
    (hc0 : r.createdAt ≠ 0) (hlt : now - r.createdAt ≤ 600000) :
    Room.fetch s ⟨"GET", "/room/r/get", some K, none⟩ uuid now
      = .resp (jsonResponse (.obj [("offer", r.offer), ("answer", orNull r.answer)]) 200)
          (s.gc now 600)
    ∧ (∀ a, r.answer = some a → a.truthy = true → orNull r.answer = a)
    ∧ (r.answer = none → orNull r.answer = Json.null)
    ∧ (∀ a, r.answer = some a → a.truthy = false → orNull r.answer = Json.null) := by
  refine ⟨?_, ?_, ?_, ?_⟩
  · rw [fetch_get_eq, effectiveKey_some _ _ hK]
    have hlive : r.live now 600 = true := live_of _ _ hc0 hlt
    rw [readSession_found _ _ _ (Sessions.get_gc_live s K r now 600 hget hlive)]
  · intro a ha htruthy
    rw [ha]
    simp [orNull, htruthy]
  · intro ha
    rw [ha]
    rfl
  · intro a ha hfalsy
    rw [ha]
    simp [orNull, hfalsy]

/-- C7 witness: the amended passthrough at a concrete record with a truthy
stored answer. -/
theorem C7_passthrough_amended_witness :
    Sessions.get? [("K", ⟨.str "o", some (.str "a"), 1000⟩)] "K"
        = some ⟨.str "o", some (.str "a"), 1000⟩
    ∧ (Room.fetch [("K", ⟨.str "o", some (.str "a"), 1000⟩)]
          ⟨"GET", "/room/r/get", some "K", none⟩ "u" 1000
        = .resp (jsonResponse
            (.obj [("offer", .str "o"), ("answer", orNull (some (.str "a")))]) 200)
            (Sessions.gc [("K", ⟨.str "o", some (.str "a"), 1000⟩)] 1000 600)
      ∧ (∀ a, (some (Json.str "a") : Option Json) = some a → a.truthy = true
          → orNull (some (.str "a")) = a)
      ∧ ((some (Json.str "a") : Option Json) = none → orNull (some (.str "a")) = Json.null)
      ∧ (∀ a, (some (Json.str "a") : Option Json) = some a → a.truthy = false
          → orNull (some (.str "a")) = Json.null)) :=
  ⟨rfl, C7_passthrough_amended [("K", ⟨.str "o", some (.str "a"), 1000⟩)] "K" "u"
    ⟨.str "o", some (.str "a"), 1000⟩ 1000 rfl (by decide) (by decide) (by decide)⟩

theorem workerFetch_alpha_offer_eq (world : World) (qk : Option String)
    (body : Option Json) (uuid : String) (now : Int) :
    workerFetch world ⟨"POST", "/room/alpha/offer", qk, body⟩ uuid now
      = .resp (createOffer ((world "alpha").gc now 600) (effectiveKey qk uuid) body now).1
          (fun x => if x == "alpha"
            then (createOffer ((world "alpha").gc now 600) (effectiveKey qk uuid) body now).2
            else world x) := rfl

theorem workerFetch_beta_get_eq (world : World) (qk : Option String)
    (uuid : String) (now : Int) :
    workerFetch world ⟨"GET", "/room/beta/get", qk, none⟩ uuid now
      = .resp (readSession ((world "beta").gc now 600) (effectiveKey qk uuid))
          (fun x => if x == "beta" then (world "beta").gc now 600 else world x) := rfl

/-- C8: any request whose path does not address room `b` leaves room `b`'s
session map unchanged; in particular, after `CreateOffer` with key `K` in
room `"alpha"`, room `"beta"` is untouched and `ReadSession(K)` there
returns `NotFound` when `"beta"` holds no record for `K`. -/
theorem C8_room_isolation :
    (∀ (world : World) (req : Request) (uuid : String) (now : Int) (b : String),
        (pathParts req.pathname)[1]? ≠ some b →
        (workerFetch world req uuid now).world b = world b)
    ∧ (∀ (world : World) (K : String) (O : Json) (u1 u2 : String) (t1 t2 : Int),
        K ≠ "" → (world "beta").get? K = none →
        (workerFetch world ⟨"POST", "/room/alpha/offer", some K, some O⟩ u1 t1).world "beta"
            = world "beta"
        ∧ ∃ w2 : World,
            workerFetch
                ((workerFetch world ⟨"POST", "/room/alpha/offer", some K, some O⟩ u1 t1).world)
                ⟨"GET", "/room/beta/get", some K, none⟩ u2 t2
              = .resp ⟨404, .text "Not found"⟩ w2
            ∧ w2 "beta" = (world "beta").gc t2 600) := by
  constructor
  · intro world req uuid now b hb
    by_cases h1 : (req.method == "OPTIONS") = true
    · simp [workerFetch, h1, WorkerOutcome.world]
    · by_cases h2 : (req.pathname == "/health") = true
      · simp [workerFetch, h1, h2, WorkerOutcome.world]
      · by_cases h3 : ((pathParts req.pathname)[0]? == some "room"
            && decide ((pathParts req.pathname).length ≥ 3)) = true
        · have hlen : 1 < (pathParts req.pathname).length := by
            have h4 := (Bool.and_eq_true _ _).mp h3
            have h5 := of_decide_eq_true h4.2
            omega
          have hsome : (pathParts req.pathname)[1]?
              = some ((pathParts req.pathname)[1]) := List.getElem?_eq_getElem hlen
          have hnb : (b == (pathParts req.pathname)[1]?.getD "") = false := by
            rw [hsome]
            simp only [Option.getD_some]
            refine beq_eq_false_iff_ne.mpr ?_
            intro hcontra
            exact hb (by rw [hsome, hcontra])
          unfold workerFetch
          rw [if_neg h1, if_neg h2]
          simp only [h3, if_true]
          cases hf : Room.fetch (world ((pathParts req.pathname)[1]?.getD "")) req uuid now with
          | resp r s2 => simp [hf, WorkerOutcome.world, hnb]
          | thrown s2 => simp [hf, WorkerOutcome.world, hnb]
        · simp [workerFetch, h1, h2, h3, WorkerOutcome.world]
  · intro world K O u1 u2 t1 t2 hK hbeta
    refine ⟨rfl, ?_⟩
    refine ⟨fun x => if x == "beta"
        then (((workerFetch world ⟨"POST", "/room/alpha/offer", some K, some O⟩ u1 t1).world
          "beta").gc t2 600)
        else (workerFetch world ⟨"POST", "/room/alpha/offer", some K, some O⟩ u1 t1).world x,
      ?_, ?_⟩
    · rw [workerFetch_beta_get_eq]
      have h1 : (workerFetch world ⟨"POST", "/room/alpha/offer", some K, some O⟩ u1 t1).world
          "beta" = world "beta" := rfl
      rw [h1, effectiveKey_some _ _ hK,
        readSession_none _ _ (Sessions.get_gc_none _ _ _ _ hbeta)]
    · rfl

/-- C8 witness: isolation evaluated at a concrete world and request. -/
theorem C8_room_isolation_witness :
    ((pathParts "/room/alpha/offer")[1]? ≠ some "beta"
      ∧ (workerFetch (fun _ => ([] : Sessions))
          ⟨"POST", "/room/alpha/offer", some "K", some (.str "o")⟩ "u" 5).world "beta" = [])
    ∧ (Sessions.get? ((fun _ => ([] : Sessions)) "beta") "K" = none
      ∧ (workerFetch (fun _ => ([] : Sessions))
          ⟨"POST", "/room/alpha/offer", some "K", some (.str "o")⟩ "u" 5).world "beta"
          = (fun _ => ([] : Sessions)) "beta"
      ∧ ∃ w2 : World,
          workerFetch
              ((workerFetch (fun _ => ([] : Sessions))
                ⟨"POST", "/room/alpha/offer", some "K", some (.str "o")⟩ "u" 5).world)
              ⟨"GET", "/room/beta/get", some "K", none⟩ "u" 6
            = .resp ⟨404, .text "Not found"⟩ w2
          ∧ w2 "beta" = Sessions.gc ((fun _ => ([] : Sessions)) "beta") 6 600) :=
  ⟨⟨by decide, C8_room_isolation.1 (fun _ => [])
      ⟨"POST", "/room/alpha/offer", some "K", some (.str "o")⟩ "u" 5 "beta" (by decide)⟩,
    ⟨rfl, C8_room_isolation.2 (fun _ => []) "K" (.str "o") "u" "u" 5 6 (by decide) rfl⟩⟩

theorem OfferInv.createOffer_preserved (s : Sessions) (key : String)
    (body : Option Json) (now : Int) (h : OfferInv s) :
    OfferInv (createOffer s key body now).2 := by
  by_cases hb : (body.getD Json.null).truthy = true
  · rw [createOffer_ok _ _ _ _ hb]
    exact OfferInv.set s key _ h hb
  · rw [createOffer_fail _ _ _ _ (by simpa using hb)]
    exact h

theorem OfferInv.submitAnswer_preserved (s : Sessions) (key : String)
    (body : Option Json) (h : OfferInv s) :
    OfferInv (submitAnswer s key body).sessions := by
  cases hget : s.get? key with
  | none =>
      rw [submitAnswer_none _ _ _ hget]
      exact h
  | some r =>
      have hoff : r.offer.truthy = true := OfferInv.get s key r h hget
      by_cases hb : body.getD (.obj []) = Json.null
      · rw [submitAnswer_thrown _ _ _ _ hget hoff hb]
        exact h
      · rw [submitAnswer_found _ _ _ _ hget hoff hb]
        exact OfferInv.set _ _ _ h hoff

theorem OfferInv.fetch_preserved (s : Sessions) (req : Request) (uuid : String)
    (now : Int) (h : OfferInv s) : OfferInv (Room.fetch s req uuid now).sessions := by
  have hg : OfferInv (s.gc now 600) := OfferInv.gc s now 600 h
  unfold Room.fetch
  by_cases hA : (req.method == "POST"
      && ((pathParts req.pathname)[2]? == some "offer")) = true
  · simp only [hA, if_true]
    exact OfferInv.createOffer_preserved _ _ _ _ hg
  · simp only [hA, Bool.false_eq_true, if_false]
    by_cases hB : (req.method == "POST"
        && ((pathParts req.pathname)[2]? == some "answer")) = true
    · simp only [hB, if_true]
      exact OfferInv.submitAnswer_preserved _ _ _ hg
    · simp only [hB, Bool.false_eq_true, if_false]
      by_cases hC : (req.method == "GET"
          && ((pathParts req.pathname)[2]? == some "get")) = true
      · simp only [hC, if_true]
        exact hg
      · simp only [hC, Bool.false_eq_true, if_false]
        exact hg

/-- C9: the empty map satisfies the offer invariant; every `Room.fetch`
preserves it; under it every stored record has a truthy offer (so a
record without an offer cannot exist), and consequently the `no offer`
404 of `SubmitAnswer` fires exactly when no record exists for the key. -/
theorem C9_offer_invariant :
    OfferInv []
    ∧ (∀ (s : Sessions) (req : Request) (uuid : String) (now : Int),
        OfferInv s → OfferInv (Room.fetch s req uuid now).sessions)
    ∧ (∀ (s : Sessions) (key : String) (r : SessionRecord),
        OfferInv s → s.get? key = some r → r.offer.truthy = true)
    ∧ (∀ (s : Sessions) (key : String) (body : Option Json),
        OfferInv s →
        (submitAnswer s key body
            = .resp (jsonResponse (.obj [("error", .str "no offer")]) 404) s
          ↔ s.get? key = none)) := by
  refine ⟨OfferInv.nil, OfferInv.fetch_preserved, OfferInv.get, ?_⟩
  intro s key body h
  constructor
  · intro h404
    cases hget : s.get? key with
    | none => rfl
    | some r =>
        exfalso
        have hoff := OfferInv.get s key r h hget
        by_cases hb : body.getD (.obj []) = Json.null
        · rw [submitAnswer_thrown _ _ _ _ hget hoff hb] at h404
          exact FetchOutcome.noConfusion h404
        · rw [submitAnswer_found _ _ _ _ hget hoff hb] at h404
          simp [jsonResponse] at h404
  · intro hnone
    exact submitAnswer_none _ _ _ hnone

/-- C9 witness: the invariant clauses evaluated at a concrete state. -/
theorem C9_offer_invariant_witness :
    OfferInv [("K", (⟨.str "o", none, 5⟩ : SessionRecord))]
    ∧ OfferInv (Room.fetch [("K", ⟨.str "o", none, 5⟩)]
        ⟨"POST", "/room/r/offer", none, some (.str "p")⟩ "u" 5).sessions
    ∧ Json.truthy (SessionRecord.offer ⟨.str "o", none, 5⟩) = true
    ∧ (submitAnswer [("K", ⟨.str "o", none, 5⟩)] "missing" none
          = .resp (jsonResponse (.obj [("error", .str "no offer")]) 404)
              [("K", ⟨.str "o", none, 5⟩)]
        ↔ Sessions.get? [("K", ⟨.str "o", none, 5⟩)] "missing" = none) := by
  have hinv : OfferInv [("K", (⟨.str "o", none, 5⟩ : SessionRecord))] := by
    intro p hp
    simp only [List.mem_singleton] at hp
    rw [hp]
    rfl
  exact ⟨hinv, C9_offer_invariant.2.1 _ _ "u" 5 hinv,
    C9_offer_invariant.2.2.1 [("K", ⟨.str "o", none, 5⟩)] "K" ⟨.str "o", none, 5⟩ hinv rfl,
    C9_offer_invariant.2.2.2 [("K", ⟨.str "o", none, 5⟩)] "missing" none hinv⟩

/-- C10: when the `key` query parameter is absent or the empty string, the
handler substitutes the freshly generated UUID: `CreateOffer` inserts
under the UUID and returns it, while `SubmitAnswer` and `ReadSession`
look the UUID up and return `NotFound` when it is not present in the
swept map. -/
theorem C10_generated_key (s : Sessions) (qk : Option String) (uuid : String)
    (O : Json) (body : Option Json) (now : Int)
    (hqk : qk = none ∨ qk = some "") (hO : O.truthy = true) :
    effectiveKey qk uuid = uuid
    ∧ Room.fetch s ⟨"POST", "/room/r/offer", qk, some O⟩ uuid now
        = .resp (jsonResponse (.obj [("key", .str uuid)]) 200)
            ((s.gc now 600).set uuid ⟨O, none, now⟩)
    ∧ ((s.gc now 600).get? uuid = none →
        Room.fetch s ⟨"POST", "/room/r/answer", qk, body⟩ uuid now
          = .resp (jsonResponse (.obj [("error", .str "no offer")]) 404) (s.gc now 600))
    ∧ ((s.gc now 600).get? uuid = none →
        Room.fetch s ⟨"GET", "/room/r/get", qk, none⟩ uuid now
          = .resp (⟨404, .text "Not found"⟩ : Response) (s.gc now 600)) := by
  have hek : effectiveKey qk uuid = uuid := by
    rcases hqk with h | h <;> simp [h, effectiveKey]
  refine ⟨hek, ?_, ?_, ?_⟩
  · rw [fetch_offer_eq, createOffer_ok _ _ _ _ (by simpa using hO), hek]
    rfl
  · intro hnone
    rw [fetch_answer_eq, hek, submitAnswer_none _ _ _ hnone]
  · intro hnone
    rw [fetch_get_eq, hek, readSession_none _ _ hnone]

/-- C10 witness: the generated-key behavior at a concrete request with no
`key` parameter. -/
theorem C10_generated_key_witness :
    Json.truthy (.str "o") = true
    ∧ (effectiveKey none "U" = "U"
      ∧ Room.fetch [] ⟨"POST", "/room/r/offer", none, some (.str "o")⟩ "U" 5
          = .resp (jsonResponse (.obj [("key", .str "U")]) 200)
              ((Sessions.gc [] 5 600).set "U" ⟨.str "o", none, 5⟩)
      ∧ ((Sessions.gc [] 5 600).get? "U" = none →
          Room.fetch [] ⟨"POST", "/room/r/answer", none, none⟩ "U" 5
            = .resp (jsonResponse (.obj [("error", .str "no offer")]) 404)
                (Sessions.gc [] 5 600))
      ∧ ((Sessions.gc [] 5 600).get? "U" = none →
          Room.fetch [] ⟨"GET", "/room/r/get", none, none⟩ "U" 5
            = .resp (⟨404, .text "Not found"⟩ : Response) (Sessions.gc [] 5 600))) :=
  ⟨rfl, C10_generated_key [] none "U" (.str "o") none 5 (Or.inl rfl) rfl⟩

